import Mathlib

/-!
Verification of the accessibility-snapshot core of the `fast-browser-use`
browser automation tool (files `src/dom/element.rs`, `src/dom/tree.rs`,
`src/dom/yaml.rs`, `src/tools/snapshot.rs`).

The Rust code is shallowly embedded: each Rust function becomes an
executable Lean definition of the same name (snake_case turned into
lowerCamelCase), machine strings become `String`, `Vec<T>` becomes
`List T`, `Option<T>` becomes `Option T`, `HashMap<String, String>`
becomes an association list whose keys are without duplicates (the
invariant every `HashMap` maintains), and the `f64` coordinates of
bounding boxes - on which the embedded code performs no arithmetic at
all, it only stores them - become `Int`.
-/

set_option autoImplicit false

set_option maxRecDepth 4096

/-! ## Character classes used by `yaml.rs`

`yaml.rs` calls Rust's `char::is_whitespace` (the Unicode `White_Space`
property) and `char::is_control` (the `Cc` category). Both are small
closed sets, reproduced here in full.
-/

/-- Model of Rust `char::is_whitespace`: the Unicode `White_Space` code points. -/
def rustIsWhitespace (c : Char) : Bool :=
  let n := c.toNat
  (0x09 ≤ n ∧ n ≤ 0x0d) ∨ n = 0x20 ∨ n = 0x85 ∨ n = 0xa0 ∨ n = 0x1680 ∨
  (0x2000 ≤ n ∧ n ≤ 0x200a) ∨ n = 0x2028 ∨ n = 0x2029 ∨ n = 0x202f ∨
  n = 0x205f ∨ n = 0x3000

/-- Model of Rust `char::is_control`: the Unicode `Cc` category,
`U+0000`-`U+001F` and `U+007F`-`U+009F`. -/
def rustIsControl (c : Char) : Bool :=
  let n := c.toNat
  n ≤ 0x1f ∨ (0x7f ≤ n ∧ n ≤ 0x9f)

/-- The double-quote character (written via its code point to keep string
scanners honest). -/
def dquote : Char := Char.ofNat 34

/-- The single-quote character. -/
def squote : Char := Char.ofNat 39

/-- The backtick character. -/
def backquote : Char := Char.ofNat 96

/-- Model of Rust `str::to_lowercase`, restricted to the ASCII mapping
(`char.toLower`); the strings compared against it in `yaml.rs` are the
ASCII YAML keywords, for which the ASCII mapping agrees with Unicode
lowercasing. -/
def rustToLowercase (s : String) : String :=
  String.mk (s.data.map Char.toLower)

/-- Decides whether `sub` occurs as a contiguous subsequence of `l`;
model of Rust `str::contains` with a multi-character pattern. -/
def containsSeq (sub : List Char) : List Char → Bool
  | [] => sub.isEmpty
  | c :: rest => sub.isPrefixOf (c :: rest) || containsSeq sub rest

/-! ## The grammar accepted by `f64::from_str`

`yaml_string_needs_quotes` ends with `s.parse::<f64>().is_ok()`. Rust's
float parser accepts, per its documentation:

`Float ::= Sign? ( 'inf' | 'infinity' | 'nan' | Number )`,
`Number ::= Count '.'? Count? Exp? | '.' Count Exp?`,
`Exp ::= ('e'|'E') Sign? Count`, `Count ::= Digit+`,

with `inf`/`infinity`/`nan` case-insensitive; parsing never fails on
overflow, so acceptance is a pure grammar check, embedded below.
-/

/-- Strips one optional leading sign character. -/
def stripSign : List Char → List Char
  | [] => []
  | c :: rest => if c = '+' ∨ c = '-' then rest else c :: rest

/-- Accepts the `Exp ::= ('e'|'E') Sign? Count` tail of the float
grammar, or the empty remainder. -/
def isExpTail : List Char → Bool
  | [] => true
  | c :: r =>
    (c = 'e' ∨ c = 'E') &&
      (let r2 := stripSign r
       let p := r2.span Char.isDigit
       !p.1.isEmpty && p.2.isEmpty)

/-- Accepts the `Number` production of the float grammar. -/
def isF64Number (l : List Char) : Bool :=
  let p := l.span Char.isDigit
  match p.2 with
  | '.' :: r2 =>
    let q := r2.span Char.isDigit
    (!p.1.isEmpty || !q.1.isEmpty) && isExpTail q.2
  | r1 => !p.1.isEmpty && isExpTail r1

/-- Model of `s.parse::<f64>().is_ok()`: the whole string matches the
`Float` production. -/
def parsesAsF64 (s : String) : Bool :=
  let l := stripSign s.data
  let low := l.map Char.toLower
  if low = "inf".data ∨ low = "infinity".data ∨ low = "nan".data then true
  else isF64Number l

/-! ## `yaml.rs`: the needs-quoting predicate

Each early-`return true` of `yaml_string_needs_quotes` becomes one named
atomic check, and the function itself is their short-circuit disjunction
in source order.
-/

/-- First character is whitespace (`s.starts_with(char::is_whitespace)`). -/
def startsWithWs (s : String) : Bool :=
  match s.data.head? with
  | some c => rustIsWhitespace c
  | none => false

/-- Last character is whitespace (`s.ends_with(char::is_whitespace)`). -/
def endsWithWs (s : String) : Bool :=
  match s.data.getLast? with
  | some c => rustIsWhitespace c
  | none => false

/-- Some character is a control character. -/
def hasControlChar (s : String) : Bool :=
  s.data.any rustIsControl

/-- String starts with a dash. -/
def startsWithDash (s : String) : Bool :=
  s.data.head? == some '-'

/-- String contains the two-character sequence `":\n"`. -/
def hasColonNewline (s : String) : Bool :=
  containsSeq [':', '\n'] s.data

/-- String contains the two-character sequence `": "`. -/
def hasColonSpace (s : String) : Bool :=
  containsSeq [':', ' '] s.data

/-- String ends with a colon. -/
def endsWithColon (s : String) : Bool :=
  s.data.getLast? == some ':'

/-- String contains a space followed by a hash (comment indicator). -/
def hasSpaceHash (s : String) : Bool :=
  containsSeq [' ', '#'] s.data

/-- String contains a line feed. -/
def hasNewline (s : String) : Bool :=
  s.data.contains '\n'

/-- String contains a carriage return. -/
def hasCarriageReturn (s : String) : Bool :=
  s.data.contains '\r'

/-- String starts with one of the YAML indicator characters
`& * , ? ! > | @ " ' # %`. -/
def startsWithIndicator (s : String) : Bool :=
  match s.data.head? with
  | some c => ['&', '*', ',', '?', '!', '>', '|', '@', dquote, squote, '#', '%'].contains c
  | none => false

/-- String contains a double quote. -/
def hasDquote (s : String) : Bool :=
  s.data.contains dquote

/-- String contains a backslash. -/
def hasBackslash (s : String) : Bool :=
  s.data.contains '\\'

/-- String contains a single quote. -/
def hasSquote (s : String) : Bool :=
  s.data.contains squote

/-- String contains a curly brace or a backtick. -/
def hasBraceOrBacktick (s : String) : Bool :=
  s.data.any (fun c => c = '{' ∨ c = '}' ∨ c = backquote)

/-- String starts with an opening square bracket. -/
def startsWithBracket (s : String) : Bool :=
  s.data.head? == some '['

/-- Lowercased string is one of the YAML boolean/null keywords. -/
def isYamlKeyword (s : String) : Bool :=
  ["y", "n", "yes", "no", "true", "false", "on", "off", "null"].contains
    (rustToLowercase s)

/-- Model of `yaml_string_needs_quotes` (`yaml.rs`): the short-circuit
disjunction of its early returns, in source order. -/
def yamlStringNeedsQuotes (s : String) : Bool :=
  s.isEmpty
  || (startsWithWs s || endsWithWs s)
  || hasControlChar s
  || startsWithDash s
  || (hasColonNewline s || hasColonSpace s || endsWithColon s)
  || hasSpaceHash s
  || (hasNewline s || hasCarriageReturn s)
  || startsWithIndicator s
  || (hasDquote s || hasBackslash s || hasSquote s)
  || hasBraceOrBacktick s
  || startsWithBracket s
  || isYamlKeyword s
  || parsesAsF64 s

/-- Lowercase hexadecimal digit for a value below 16. -/
def hexDigitChar (n : Nat) : Char :=
  if n < 10 then Char.ofNat (48 + n) else Char.ofNat (87 + n)

/-- Model of `yaml_escape_key_if_needed` (`yaml.rs`): single-quote the
string, doubling embedded single quotes, when quoting is needed. -/
def yamlEscapeKeyIfNeeded (s : String) : String :=
  if !yamlStringNeedsQuotes s then s
  else
    String.singleton squote ++
      String.join (s.data.map
        (fun c => if c = squote then String.mk [squote, squote]
                  else String.singleton c)) ++
      String.singleton squote

/-- Escape of one character inside a double-quoted YAML value, following
the `match` in `yaml_escape_value_if_needed`. -/
def yamlEscapeValueChar (c : Char) : String :=
  if c = '\\' then "\\\\"
  else if c = dquote then String.mk ['\\', dquote]
  else if c = Char.ofNat 0x08 then "\\b"
  else if c = Char.ofNat 0x0c then "\\f"
  else if c = '\n' then "\\n"
  else if c = '\r' then "\\r"
  else if c = '\t' then "\\t"
  else if rustIsControl c then
    String.mk ['\\', 'x', hexDigitChar (c.toNat / 16), hexDigitChar (c.toNat % 16)]
  else String.singleton c

/-- Model of `yaml_escape_value_if_needed` (`yaml.rs`): double-quote and
escape the string when quoting is needed. -/
def yamlEscapeValueIfNeeded (s : String) : String :=
  if !yamlStringNeedsQuotes s then s
  else
    String.singleton dquote ++ String.join (s.data.map yamlEscapeValueChar) ++
      String.singleton dquote

example : yamlStringNeedsQuotes "" = true := by decide
example : yamlStringNeedsQuotes " text" = true := by decide
example : yamlStringNeedsQuotes "text " = true := by decide
example : yamlStringNeedsQuotes "-text" = true := by decide
example : yamlStringNeedsQuotes "foo: bar" = true := by decide
example : yamlStringNeedsQuotes "foo #bar" = true := by decide
example : yamlStringNeedsQuotes "true" = true := by decide
example : yamlStringNeedsQuotes "123" = true := by decide
example : yamlStringNeedsQuotes "[array]" = true := by decide
example : yamlStringNeedsQuotes "simple" = false := by decide
example : yamlStringNeedsQuotes "hello-world" = false := by decide
example : yamlStringNeedsQuotes "foo_bar" = false := by decide
example : yamlStringNeedsQuotes "3.5e7" = true := by decide
example : yamlStringNeedsQuotes "-.5" = true := by decide
example : yamlStringNeedsQuotes "Infinity" = true := by decide
example : yamlStringNeedsQuotes "3e" = false := by decide
example : yamlEscapeValueIfNeeded "hello\nworld" = "\"hello\\nworld\"" := by decide
example : yamlEscapeKeyIfNeeded "-start" =
    String.singleton squote ++ "-start" ++ String.singleton squote := by decide

/-! ## `element.rs`: the data model

`AriaNode` and `AriaChild` are mutually recursive exactly as in the
source; the eleven scalar fields of the Rust struct are grouped into an
auxiliary `AriaFields` record so that the mutual inductive has a single
recursive constructor argument (the children list).
-/

/-- Model of the `AriaChecked` enum: `true`, `false`, or `Mixed`
(carrying its string, as in the source). -/
inductive AriaChecked : Type where
  | bool (b : Bool)
  | mixed (s : String)
  deriving DecidableEq, Repr

/-- Model of the `AriaPressed` enum. -/
inductive AriaPressed : Type where
  | bool (b : Bool)
  | mixed (s : String)
  deriving DecidableEq, Repr

/-- Model of `Rect`; the `f64` coordinates are embedded as `Int` since
the verified code never computes with them. -/
structure Rect : Type where
  x : Int
  y : Int
  width : Int
  height : Int
  deriving DecidableEq, Repr

/-- Model of `BoxInfo` (visibility, CSS cursor, optional bounding box). -/
structure BoxInfo : Type where
  visible : Bool
  cursor : Option String
  rect : Option Rect
  deriving DecidableEq, Repr

/-- Model of `BoxInfo::default()`. -/
def BoxInfo.default : BoxInfo :=
  { visible := false, cursor := none, rect := none }

/-- Model of `HashMap<String, String>`: an association list whose keys
carry no duplicates - the invariant every `HashMap` maintains. -/
def PropsMap : Type := { l : List (String × String) // (l.map Prod.fst).Nodup }

/-- The empty props map (`HashMap::new()`). -/
def PropsMap.empty : PropsMap := ⟨[], List.nodup_nil⟩

/-- The non-recursive fields of an `AriaNode`, in source order. -/
structure AriaFields : Type where
  role : String
  name : String
  index : Option Nat
  props : PropsMap
  box_info : BoxInfo
  checked : Option AriaChecked
  disabled : Option Bool
  expanded : Option Bool
  level : Option Nat
  pressed : Option AriaPressed
  selected : Option Bool
  active : Option Bool

mutual
/-- Model of the `AriaNode` struct: its scalar fields plus the ordered
children list. -/
inductive AriaNode : Type where
  | mk (fields : AriaFields) (children : List AriaChild)
/-- Model of the `AriaChild` enum: a text child or a nested node. -/
inductive AriaChild : Type where
  | text (s : String)
  | node (n : AriaNode)
end

/-- Scalar fields of a node. -/
def AriaNode.fields : AriaNode → AriaFields
  | .mk f _ => f

/-- Children of a node. -/
def AriaNode.children : AriaNode → List AriaChild
  | .mk _ cs => cs

/-- Role of a node. -/
def AriaNode.role (n : AriaNode) : String := n.fields.role

/-- Accessible name of a node. -/
def AriaNode.name (n : AriaNode) : String := n.fields.name

/-- Interactive-element index of a node. -/
def AriaNode.index (n : AriaNode) : Option Nat := n.fields.index

/-- Props map of a node. -/
def AriaNode.props (n : AriaNode) : PropsMap := n.fields.props

/-- Box information of a node. -/
def AriaNode.box_info (n : AriaNode) : BoxInfo := n.fields.box_info

/-- Checked state of a node. -/
def AriaNode.checked (n : AriaNode) : Option AriaChecked := n.fields.checked

/-- Disabled state of a node. -/
def AriaNode.disabled (n : AriaNode) : Option Bool := n.fields.disabled

/-- Expanded state of a node. -/
def AriaNode.expanded (n : AriaNode) : Option Bool := n.fields.expanded

/-- Heading/list level of a node. -/
def AriaNode.level (n : AriaNode) : Option Nat := n.fields.level

/-- Pressed state of a node. -/
def AriaNode.pressed (n : AriaNode) : Option AriaPressed := n.fields.pressed

/-- Selected state of a node. -/
def AriaNode.selected (n : AriaNode) : Option Bool := n.fields.selected

/-- Active state of a node. -/
def AriaNode.active (n : AriaNode) : Option Bool := n.fields.active

/-- Model of `AriaNode::new(role, name)`: all optional fields absent,
no children, empty props, default box. -/
def AriaNode.new (role name : String) : AriaNode :=
  .mk { role := role, name := name, index := none, props := PropsMap.empty,
        box_info := BoxInfo.default, checked := none, disabled := none,
        expanded := none, level := none, pressed := none, selected := none,
        active := none } []

/-- Model of `AriaNode::fragment()`. -/
def AriaNode.fragment : AriaNode := AriaNode.new "fragment" ""

/-- Model of the builder `with_index`. -/
def AriaNode.withIndex : AriaNode → Nat → AriaNode
  | .mk f cs, i => .mk { f with index := some i } cs

/-- Model of the builder `with_child` (appends one child). -/
def AriaNode.withChild : AriaNode → AriaChild → AriaNode
  | .mk f cs, c => .mk f (cs ++ [c])

/-- Model of the builder `with_children` (replaces the children list). -/
def AriaNode.withChildren : AriaNode → List AriaChild → AriaNode
  | .mk f _, cs => .mk f cs

/-- Model of the builder `with_box`. -/
def AriaNode.withBox : AriaNode → Bool → Option String → AriaNode
  | .mk f cs, v, cur =>
    .mk { f with box_info := { visible := v, cursor := cur, rect := none } } cs

/-- Model of the builder `with_checked`. -/
def AriaNode.withChecked : AriaNode → Bool → AriaNode
  | .mk f cs, b => .mk { f with checked := some (.bool b) } cs

/-- Model of the builder `with_disabled`. -/
def AriaNode.withDisabled : AriaNode → Bool → AriaNode
  | .mk f cs, b => .mk { f with disabled := some b } cs

/-- Model of the builder `with_level`. -/
def AriaNode.withLevel : AriaNode → Nat → AriaNode
  | .mk f cs, l => .mk { f with level := some l } cs

/-- Model of `AriaNode::has_pointer_cursor`:
`box_info.cursor.map_or(false, |c| c == "pointer")`. -/
def hasPointerCursor (n : AriaNode) : Bool :=
  match n.box_info.cursor with
  | some c => c == "pointer"
  | none => false

/-- Model of `AriaNode::is_interactive`. -/
def isInteractive (n : AriaNode) : Bool :=
  n.index.isSome && n.box_info.visible

/-- Model of `AriaNode::is_container`. -/
def isContainer (n : AriaNode) : Bool :=
  n.role == "fragment" || n.role == "iframe"

mutual
/-- Model of `AriaNode::find_by_index`: depth-first pre-order search for
the first node carrying the given index. -/
def findByIndex : AriaNode → Nat → Option AriaNode
  | .mk f cs, idx =>
    if f.index = some idx then some (.mk f cs)
    else findByIndexList cs idx

/-- Companion of `findByIndex`: the loop over a children list. -/
def findByIndexList : List AriaChild → Nat → Option AriaNode
  | [], _ => none
  | .text _ :: rest, idx => findByIndexList rest idx
  | .node n :: rest, idx =>
    match findByIndex n idx with
    | some found => some found
    | none => findByIndexList rest idx
end

/-- Model of `HashMap::get` on the association-list embedding: the value
at the first matching key. -/
def propsGet (k : String) : List (String × String) → Option String
  | [] => none
  | p :: rest => if p.1 = k then some p.2 else propsGet k rest

/-- Model of the props comparison inside `AriaNode::aria_equals`: equal
sizes and every entry of the first map present in the second. -/
def propsCodeEqual (a b : PropsMap) : Bool :=
  (a.val.length = b.val.length) &&
    a.val.all (fun p => propsGet p.1 b.val == some p.2)

/-- Model of `AriaNode::aria_equals` (`element.rs`), the structural
differ: the conjunction of the checks whose failure makes the source
return `false`, in source order. -/
def ariaEquals (a b : AriaNode) : Bool :=
  (a.role == b.role) && (a.name == b.name) &&
  (a.checked == b.checked) && (a.disabled == b.disabled) &&
  (a.expanded == b.expanded) && (a.level == b.level) &&
  (a.pressed == b.pressed) && (a.selected == b.selected) &&
  (hasPointerCursor a == hasPointerCursor b) &&
  propsCodeEqual a.props b.props

example :
    ariaEquals ((AriaNode.new "button" "Click").withDisabled false)
      ((AriaNode.new "button" "Click").withDisabled false) = true := by rfl

example :
    ariaEquals ((AriaNode.new "button" "Click").withDisabled false)
      ((AriaNode.new "button" "Click").withDisabled true) = false := by rfl

example :
    findByIndex (AriaNode.fragment.withChild
        (.node ((AriaNode.new "button" "First").withIndex 0))) 0 =
      some ((AriaNode.new "button" "First").withIndex 0) := by rfl

/-! ## `tree.rs`: the snapshot container -/

mutual
/-- Model of `DomTree::find_max_index`: the largest index occurring in
the subtree, if any. -/
def findMaxIndex : AriaNode → Option Nat
  | .mk f cs => findMaxIndexList f.index cs

/-- Companion of `findMaxIndex`: folds the children into the running
maximum, as the source loop does. -/
def findMaxIndexList : Option Nat → List AriaChild → Option Nat
  | acc, [] => acc
  | acc, .text _ :: rest => findMaxIndexList acc rest
  | acc, .node n :: rest =>
    match findMaxIndex n with
    | some childMax =>
      match acc with
      | some current => findMaxIndexList (some (max current childMax)) rest
      | none => findMaxIndexList (some childMax) rest
    | none => findMaxIndexList acc rest
end

mutual
/-- Model of `DomTree::collect_iframe_indices`: the indices of nodes
whose role is `"iframe"`, in depth-first pre-order. -/
def collectIframeIndices : AriaNode → List Nat
  | .mk f cs =>
    (match f.index with
     | some idx => if f.role = "iframe" then [idx] else []
     | none => []) ++ collectIframeIndicesList cs

/-- Companion of `collectIframeIndices` over a children list. -/
def collectIframeIndicesList : List AriaChild → List Nat
  | [] => []
  | .text _ :: rest => collectIframeIndicesList rest
  | .node n :: rest => collectIframeIndices n ++ collectIframeIndicesList rest
end

mutual
/-- Model of `DomTree::collect_indices`: every index in the subtree, in
depth-first pre-order. -/
def collectIndices : AriaNode → List Nat
  | .mk f cs =>
    (match f.index with
     | some idx => [idx]
     | none => []) ++ collectIndicesList cs

/-- Companion of `collectIndices` over a children list. -/
def collectIndicesList : List AriaChild → List Nat
  | [] => []
  | .text _ :: rest => collectIndicesList rest
  | .node n :: rest => collectIndices n ++ collectIndicesList rest
end

/-- Insertion step of the ascending sort below. -/
def insertSorted (x : Nat) : List Nat → List Nat
  | [] => [x]
  | y :: rest => if x ≤ y then x :: y :: rest else y :: insertSorted x rest

/-- Ascending insertion sort; extensional model of `Vec::sort` on
`usize` (duplicates are kept, order is ascending). -/
def sortNat (l : List Nat) : List Nat :=
  l.foldr insertSorted []

/-- Model of the `DomTree` struct: root node, index-parallel selector
table and iframe splice points. -/
structure DomTree : Type where
  root : AriaNode
  selectors : List String
  iframe_indices : List Nat

/-- Model of `Vec::resize(new_len, String::new())`: truncate or pad with
empty strings. -/
def listResize (l : List String) (newLen : Nat) : List String :=
  if l.length < newLen then l ++ List.replicate (newLen - l.length) "" else l.take newLen

/-- Model of `DomTree::rebuild_maps`: clear and re-collect the iframe
indices, and grow the selector table to `max_index + 1` entries when it
is shorter. -/
def DomTree.rebuildMaps (t : DomTree) : DomTree :=
  let selectors :=
    match findMaxIndex t.root with
    | some maxIdx =>
      if t.selectors.length ≤ maxIdx then listResize t.selectors (maxIdx + 1)
      else t.selectors
    | none => t.selectors
  { root := t.root, selectors := selectors,
    iframe_indices := collectIframeIndices t.root }

/-- Model of `DomTree::new`: wrap a root with empty tables, then
`rebuild_maps`. -/
def DomTree.new (root : AriaNode) : DomTree :=
  DomTree.rebuildMaps { root := root, selectors := [], iframe_indices := [] }

/-- Model of `DomTree::get_selector`:
`selectors.get(index).filter(|s| !s.is_empty())`. -/
def DomTree.getSelector (t : DomTree) (index : Nat) : Option String :=
  (t.selectors[index]?).filter (fun s => !s.isEmpty)

/-- Model of `DomTree::interactive_indices`: all indices present in the
tree, sorted ascending. -/
def DomTree.interactiveIndices (t : DomTree) : List Nat :=
  sortNat (collectIndices t.root)

/-- Model of `DomTree::find_node_by_index`. -/
def DomTree.findNodeByIndex (t : DomTree) (index : Nat) : Option AriaNode :=
  findByIndex t.root index

mutual
/-- Functional model of `find_by_index_mut` followed by
`iframe_node.children = ...`: replace the children of the first node (in
depth-first pre-order) carrying the given index, or return `none` when
no node carries it. -/
def setChildrenByIndex : AriaNode → Nat → List AriaChild → Option AriaNode
  | .mk f cs, idx, newChildren =>
    if f.index = some idx then some (.mk f newChildren)
    else
      match setChildrenByIndexList cs idx newChildren with
      | some cs2 => some (.mk f cs2)
      | none => none

/-- Companion of `setChildrenByIndex` over a children list: rebuilds the
list with the first successful replacement. -/
def setChildrenByIndexList : List AriaChild → Nat → List AriaChild → Option (List AriaChild)
  | [], _, _ => none
  | .text s :: rest, idx, newChildren =>
    match setChildrenByIndexList rest idx newChildren with
    | some rest2 => some (.text s :: rest2)
    | none => none
  | .node n :: rest, idx, newChildren =>
    match setChildrenByIndex n idx newChildren with
    | some n2 => some (.node n2 :: rest)
    | none =>
      match setChildrenByIndexList rest idx newChildren with
      | some rest2 => some (.node n :: rest2)
      | none => none
end

/-- Model of `DomTree::inject_iframe_content`: if a node with the given
index exists, replace its children with the injected snapshot's root
children, append the snapshot's non-empty selectors, and append its
iframe indices shifted by the pre-injection selector-table length;
otherwise do nothing. -/
def injectIframeContent (t : DomTree) (iframeIndex : Nat) (iframeSnapshot : DomTree) :
    DomTree :=
  match setChildrenByIndex t.root iframeIndex iframeSnapshot.root.children with
  | some newRoot =>
    let offset := t.selectors.length
    { root := newRoot,
      selectors := t.selectors ++ iframeSnapshot.selectors.filter (fun s => !s.isEmpty),
      iframe_indices :=
        t.iframe_indices ++ iframeSnapshot.iframe_indices.map (fun idx => idx + offset) }
  | none => t

/-! ## `snapshot.rs`: the YAML-style renderer -/

/-- Model of the `RenderMode` enum. -/
inductive RenderMode : Type where
  | ai
  | expect
  deriving DecidableEq, Repr

/-- Escape of one character inside Rust's `format!("{:?}", name)` on a
string: the `char::escape_debug` mapping, reproduced for the escape
table and the control range (the rarer non-printable Unicode categories
that `escape_debug` also escapes are kept verbatim here; no claim
touches them). -/
def rustCharEscapeDebug (c : Char) : String :=
  if c = '\t' then "\\t"
  else if c = '\r' then "\\r"
  else if c = '\n' then "\\n"
  else if c = '\\' then "\\\\"
  else if c = dquote then String.mk ['\\', dquote]
  else if rustIsControl c then
    "\\u" ++ String.singleton '{' ++ String.mk (Nat.toDigits 16 c.toNat) ++
      String.singleton '}'
  else String.singleton c

/-- Model of `format!("{:?}", name)`: the name between double quotes with
every character debug-escaped. -/
def rustDebugFormat (s : String) : String :=
  String.singleton dquote ++ String.join (s.data.map rustCharEscapeDebug) ++
    String.singleton dquote

/-- Condition under which `create_key` emits the `[cursor=pointer]`
marker, and under which `visit` sets `in_cursor_pointer`: the node has
an index, cursor-pointer rendering is enabled, and the cursor is a
pointer. -/
def rendersCursorMarker (n : AriaNode) (renderCursorPointer : Bool) : Bool :=
  n.index.isSome && renderCursorPointer && hasPointerCursor n

/-- Model of `create_key` (`snapshot.rs`): role, then the debug-quoted
name when it is non-empty and at most 900 bytes, then the bracketed
state markers in source order. -/
def createKey (n : AriaNode) (renderCursorPointer renderActive : Bool) : String :=
  n.role
  ++ (if n.name ≠ "" ∧ n.name.utf8ByteSize ≤ 900 then
        " " ++ rustDebugFormat n.name
      else "")
  ++ (match n.checked with
      | some (.bool true) => " [checked]"
      | some (.bool false) => ""
      | some (.mixed _) => " [checked=mixed]"
      | none => "")
  ++ (if n.disabled = some true then " [disabled]" else "")
  ++ (if n.expanded = some true then " [expanded]" else "")
  ++ (if renderActive = true ∧ n.active = some true then " [active]" else "")
  ++ (match n.level with
      | some level => " [level=" ++ toString level ++ "]"
      | none => "")
  ++ (match n.pressed with
      | some (.bool true) => " [pressed]"
      | some (.bool false) => ""
      | some (.mixed _) => " [pressed=mixed]"
      | none => "")
  ++ (if n.selected = some true then " [selected]" else "")
  ++ (match n.index with
      | some index =>
        " [index=" ++ toString index ++ "]"
          ++ (if renderCursorPointer && hasPointerCursor n then " [cursor=pointer]"
              else "")
      | none => "")

/-- Model of `get_single_inlined_text_child`: the text of the unique
child when it is a text child and there are no props. -/
def getSingleInlinedTextChild : AriaNode → Option String
  | .mk f cs =>
    match cs, f.props.val with
    | [.text t], [] => some t
    | _, _ => none

/-- Model of `visit_text`: the lines (zero or one) contributed by a text
child. -/
def visitText (text : String) (indent : String) : List String :=
  let escaped := yamlEscapeValueIfNeeded text
  if !escaped.isEmpty then [indent ++ "- text: " ++ escaped] else []

mutual
/-- Model of `visit` (`snapshot.rs`): the lines contributed by one node.
The `previous` argument is carried exactly as in the source, which
ignores it (`_previous`). -/
def visit (n : AriaNode) (indent : String) (renderCursorPointer renderActive : Bool)
    (_previous : Option AriaNode) : List String :=
  match n with
  | .mk f cs =>
    let key := createKey (.mk f cs) renderCursorPointer renderActive
    let escapedKey := indent ++ "- " ++ yamlEscapeKeyIfNeeded key
    if cs.isEmpty && f.props.val.isEmpty then [escapedKey]
    else
      match getSingleInlinedTextChild (.mk f cs) with
      | some text => [escapedKey ++ ": " ++ yamlEscapeValueIfNeeded text]
      | none =>
        let propLines := f.props.val.map
          (fun p => indent ++ "  - /" ++ p.1 ++ ": " ++ yamlEscapeValueIfNeeded p.2)
        let childIndent := indent ++ "  "
        let inCursorPointer := rendersCursorMarker (.mk f cs) renderCursorPointer
        (escapedKey ++ ":") :: propLines ++
          visitChildren cs childIndent (renderCursorPointer && !inCursorPointer)
            renderActive

/-- Companion of `visit`: the loop over a children list; node children
are visited with `previous = None`, as in the source. -/
def visitChildren (cs : List AriaChild) (indent : String)
    (renderCursorPointer renderActive : Bool) : List String :=
  match cs with
  | [] => []
  | .text s :: rest =>
    visitText s indent ++ visitChildren rest indent renderCursorPointer renderActive
  | .node m :: rest =>
    visit m indent renderCursorPointer renderActive none ++
      visitChildren rest indent renderCursorPointer renderActive
end

/-- The top-level loop of `render_aria_tree` over a fragment's children:
like `visitChildren` at indent `""`, but node children receive the
caller's `previous` argument. -/
def visitTop (cs : List AriaChild) (renderCursorPointer renderActive : Bool)
    (previous : Option AriaNode) : List String :=
  match cs with
  | [] => []
  | .text s :: rest =>
    visitText s "" ++ visitTop rest renderCursorPointer renderActive previous
  | .node m :: rest =>
    visit m "" renderCursorPointer renderActive previous ++
      visitTop rest renderCursorPointer renderActive previous

/-- Model of `render_single_node`. -/
def renderSingleNode (root : AriaNode) (mode : RenderMode)
    (previous : Option AriaNode) : String :=
  let renderCursorPointer := mode = RenderMode.ai
  let renderActive := mode = RenderMode.ai
  String.intercalate "\n" (visit root "" renderCursorPointer renderActive previous)

/-- Model of `render_aria_tree` (`snapshot.rs`): render a fragment's
children at indent zero, or delegate to `render_single_node` for a
non-fragment root; lines are joined with single newlines. -/
def renderAriaTree (root : AriaNode) (mode : RenderMode)
    (previous : Option AriaNode) : String :=
  let renderCursorPointer := mode = RenderMode.ai
  let renderActive := mode = RenderMode.ai
  if root.role == "fragment" then
    String.intercalate "\n"
      (visitTop root.children renderCursorPointer renderActive previous)
  else renderSingleNode root mode previous

mutual
/-- Trace of the renderer's cursor-pointer bookkeeping: every node of the
subtree paired with the `render_cursor_pointer` flag `visit` receives
for it, following exactly the flag transformation of `visit`
(`render_cursor_pointer && !in_cursor_pointer` on descent). -/
def visitFlags : AriaNode → Bool → List (AriaNode × Bool)
  | .mk f cs, renderCursorPointer =>
    (AriaNode.mk f cs, renderCursorPointer) ::
      visitFlagsChildren cs
        (renderCursorPointer && !rendersCursorMarker (.mk f cs) renderCursorPointer)

/-- Companion of `visitFlags` over a children list. -/
def visitFlagsChildren : List AriaChild → Bool → List (AriaNode × Bool)
  | [], _ => []
  | .text _ :: rest, renderCursorPointer => visitFlagsChildren rest renderCursorPointer
  | .node m :: rest, renderCursorPointer =>
    visitFlags m renderCursorPointer ++ visitFlagsChildren rest renderCursorPointer
end

example :
    renderAriaTree
      (AriaNode.fragment.withChild
        (.node (((AriaNode.new "button" "Click me").withIndex 0).withBox true
          (some "pointer"))))
      RenderMode.ai none =
    "- " ++ String.singleton squote ++ "button " ++ String.singleton dquote ++
      "Click me" ++ String.singleton dquote ++ " [index=0] [cursor=pointer]" ++
      String.singleton squote := by rfl

example : renderAriaTree AriaNode.fragment RenderMode.ai none = "" := by rfl

example :
    renderAriaTree
      (AriaNode.fragment.withChild (.node ((AriaNode.new "paragraph" "").withChild
        (.text "Some text"))))
      RenderMode.ai none = "- paragraph: Some text" := by rfl

/-! ## Specification-side definitions and concrete inputs

`specNeedsQuoting` transcribes the trigger list of spec section 4.2 word
for word (it is compared against the code-derived
`yamlStringNeedsQuotes` below); the remaining definitions construct the
concrete inputs used by counterexamples and witnesses, and two small
field-surgery helpers used to state claims.
-/

/-- The needs-quoting trigger list exactly as spec section 4.2 states it,
bullet by bullet: empty / boundary whitespace / control characters /
line breaks; leading dash / colon patterns / space-hash; leading
indicator characters; quotes, backslashes, braces, backticks; YAML
keywords; floats. -/
def specNeedsQuoting (s : String) : Prop :=
  s = "" ∨ startsWithWs s = true ∨ endsWithWs s = true ∨ hasControlChar s = true ∨
  hasNewline s = true ∨ hasCarriageReturn s = true ∨
  startsWithDash s = true ∨ hasColonSpace s = true ∨ hasColonNewline s = true ∨
  endsWithColon s = true ∨ hasSpaceHash s = true ∨
  startsWithIndicator s = true ∨ startsWithBracket s = true ∨
  hasDquote s = true ∨ hasBackslash s = true ∨ hasSquote s = true ∨
  hasBraceOrBacktick s = true ∨
  isYamlKeyword s = true ∨
  parsesAsF64 s = true

/-- Replaces a node's name by the empty string, keeping everything else;
used to state that an over-long name is dropped (not truncated) by
`createKey`. -/
def eraseName : AriaNode → AriaNode
  | .mk f cs => .mk { f with name := "" } cs

/-- Replaces exactly the attributes the structural differ is specified
to ignore - bounding-box rect, raw visibility, `active`, and the index -
keeping the cursor and every semantic field. -/
def overrideVolatile : AriaNode → Option Rect → Bool → Option Bool → Option Nat → AriaNode
  | .mk f cs, r, v, act, idx =>
    .mk { f with
          box_info := { visible := v, cursor := f.box_info.cursor, rect := r },
          active := act, index := idx } cs

/-- A 901-byte name (over the 900-byte rendering guard). -/
def longName : String := String.mk (List.replicate 901 'a')

/-- A button node whose name exceeds the 900-byte guard. -/
def longNameNode : AriaNode := AriaNode.new "button" longName

/-- A button node with a short name, for witnesses. -/
def shortNameNode : AriaNode := AriaNode.new "button" "Go"

/-- Parent snapshot root for the iframe-injection counterexample: a
fragment holding one iframe node carrying index 0. -/
def mainRootC1 : AriaNode :=
  AriaNode.fragment.withChild (.node ((AriaNode.new "iframe" "").withIndex 0))

/-- Child snapshot root for the iframe-injection counterexample: a
fragment holding one button carrying index 0 (indices are
frame-local, so a collision with the parent's index is the normal
case). -/
def childRootC1 : AriaNode :=
  AriaNode.fragment.withChild (.node ((AriaNode.new "button" "Inside iframe").withIndex 0))

/-- The parent container of the injection counterexample. -/
def mainTreeC1 : DomTree := DomTree.new mainRootC1

/-- The child container of the injection counterexample. -/
def childTreeC1 : DomTree := DomTree.new childRootC1

/-- A small tree used by several witnesses: a fragment with one button
at index 2 and one link at index 5. -/
def witnessRoot : AriaNode :=
  (AriaNode.fragment.withChild
    (.node (((AriaNode.new "button" "Click me").withIndex 2).withBox true
      (some "pointer")))).withChild
    (.node (((AriaNode.new "link" "Go to page").withIndex 5).withBox true none))

/-- The container over `witnessRoot`. -/
def witnessTree : DomTree := DomTree.new witnessRoot

/-- A pointer-cursor interactive node that itself contains a
pointer-cursor interactive child; used to witness the cursor-marker
suppression theorem. -/
def nestedPointerNode : AriaNode :=
  ((((AriaNode.new "button" "outer").withIndex 0).withBox true
    (some "pointer")).withChild
    (.node (((AriaNode.new "link" "inner").withIndex 1).withBox true
      (some "pointer"))))

example : createKey longNameNode true true = "button" := by rfl
example : createKey shortNameNode true true =
    "button " ++ String.singleton dquote ++ "Go" ++ String.singleton dquote := by rfl
example : mainTreeC1.selectors.length = 1 := by rfl
example : (injectIframeContent mainTreeC1 0 childTreeC1).interactiveIndices = [0, 0] := by rfl

/-- The part of `createKey` that follows the role and name: the bracketed
state markers, in source order (used to factor `createKey` in proofs). -/
def keyStateSuffix (n : AriaNode) (renderCursorPointer renderActive : Bool) : String :=
  (match n.checked with
      | some (.bool true) => " [checked]"
      | some (.bool false) => ""
      | some (.mixed _) => " [checked=mixed]"
      | none => "")
  ++ (if n.disabled = some true then " [disabled]" else "")
  ++ (if n.expanded = some true then " [expanded]" else "")
  ++ (if renderActive = true ∧ n.active = some true then " [active]" else "")
  ++ (match n.level with
      | some level => " [level=" ++ toString level ++ "]"
      | none => "")
  ++ (match n.pressed with
      | some (.bool true) => " [pressed]"
      | some (.bool false) => ""
      | some (.mixed _) => " [pressed=mixed]"
      | none => "")
  ++ (if n.selected = some true then " [selected]" else "")
  ++ (match n.index with
      | some index =>
        " [index=" ++ toString index ++ "]"
          ++ (if renderCursorPointer && hasPointerCursor n then " [cursor=pointer]"
              else "")
      | none => "")

/-! ## Theorems -/

/-- The renderer never reads its `previous` argument below the top level:
`visit` carries it as the unused `_previous`. -/
theorem visit_previous_irrelevant (n : AriaNode) (indent : String) (rcp ra : Bool)
    (p : Option AriaNode) : visit n indent rcp ra p = visit n indent rcp ra none := by
  cases n with
  | mk f cs => rfl

/-- The top-level child loop of `render_aria_tree` is likewise
independent of `previous`. -/
theorem visitTop_previous_irrelevant (cs : List AriaChild) (rcp ra : Bool)
    (p : Option AriaNode) : visitTop cs rcp ra p = visitTop cs rcp ra none := by
  induction cs with
  | nil => rfl
  | cons c rest ih =>
    cases c with
    | text s => simp only [visitTop, ih]
    | node m => simp only [visitTop, ih, visit_previous_irrelevant]

/-- Claim C7: rendering is a deterministic, side-effect-free function of
the tree and the mode alone - in particular two renderings of the same
tree in the same mode are byte-identical, whatever `previous` argument
each call receives. -/
theorem c7_render_deterministic (root : AriaNode) (mode : RenderMode)
    (p q : Option AriaNode) : renderAriaTree root mode p = renderAriaTree root mode q := by
  simp only [renderAriaTree, renderSingleNode]
  split
  · rw [visitTop_previous_irrelevant _ _ _ p, visitTop_previous_irrelevant _ _ _ q]
  · rw [visit_previous_irrelevant _ _ _ _ p, visit_previous_irrelevant _ _ _ _ q]

/-- A string that needs no YAML quoting is in particular non-empty
(emptiness is the first quoting trigger). -/
theorem ne_empty_of_not_needsQuotes {s : String}
    (h : yamlStringNeedsQuotes s = false) : s ≠ "" := by
  intro hs
  subst hs
  exact absurd h (by decide)

/-- Claim C9: escaping a value never yields the empty string (the empty
string escapes to the two-character double-quoted form), so a text child
always contributes exactly one line and the empty-output suppression
branch of `visit_text` is unreachable. -/
theorem c9_text_child_always_renders :
    (∀ s : String, yamlEscapeValueIfNeeded s ≠ "") ∧
    yamlEscapeValueIfNeeded "" = String.mk [dquote, dquote] ∧
    (∀ s indent : String,
      visitText s indent = [indent ++ "- text: " ++ yamlEscapeValueIfNeeded s]) := by
  have hne : ∀ s : String, yamlEscapeValueIfNeeded s ≠ "" := by
    intro s
    unfold yamlEscapeValueIfNeeded
    cases hq : yamlStringNeedsQuotes s with
    | false => simpa using ne_empty_of_not_needsQuotes hq
    | true =>
      simp only [Bool.not_true, Bool.false_eq_true, if_false]
      intro hcontra
      have hdata := congrArg String.data hcontra
      simp [String.data_append, String.singleton] at hdata
  refine ⟨hne, by decide, ?_⟩
  intro s indent
  unfold visitText
  have h1 : (yamlEscapeValueIfNeeded s).isEmpty = false := by
    cases hE : (yamlEscapeValueIfNeeded s).isEmpty with
    | false => rfl
    | true => exact absurd ((String.isEmpty_iff _).mp hE) (hne s)
  simp [h1]

mutual
/-- If depth-first search finds no node with a given index, the
functional update of `find_by_index_mut` fails on the same tree (the two
searches take identical paths). -/
theorem setChildren_none_of_find_none (n : AriaNode) (idx : Nat) (cs : List AriaChild)
    (h : findByIndex n idx = none) : setChildrenByIndex n idx cs = none := by
  cases n with
  | mk f children =>
    rw [findByIndex] at h
    rw [setChildrenByIndex]
    by_cases hidx : f.index = some idx
    · rw [if_pos hidx] at h
      exact absurd h (by simp)
    · rw [if_neg hidx] at h
      rw [if_neg hidx, setChildrenList_none_of_find_none children idx cs h]

/-- Companion of `setChildren_none_of_find_none` over a children list. -/
theorem setChildrenList_none_of_find_none (children : List AriaChild) (idx : Nat)
    (cs : List AriaChild) (h : findByIndexList children idx = none) :
    setChildrenByIndexList children idx cs = none := by
  match children with
  | [] => rfl
  | .text s :: rest =>
    rw [findByIndexList] at h
    rw [setChildrenByIndexList, setChildrenList_none_of_find_none rest idx cs h]
  | .node m :: rest =>
    rw [findByIndexList] at h
    cases hm : findByIndex m idx with
    | some found =>
      rw [hm] at h
      exact absurd h (by simp)
    | none =>
      rw [hm] at h
      rw [setChildrenByIndexList, setChildren_none_of_find_none m idx cs hm,
        setChildrenList_none_of_find_none rest idx cs h]
end

/-- Claim C6: when no node in the tree carries the requested index,
`inject_iframe_content` is an atomic no-op - root, selector table and
iframe-index list are all returned unchanged, and no error is raised. -/
theorem c6_inject_missing_index_is_noop (t : DomTree) (k : Nat) (child : DomTree)
    (h : t.findNodeByIndex k = none) : injectIframeContent t k child = t := by
  unfold injectIframeContent
  rw [setChildren_none_of_find_none t.root k child.root.children h]

/-- Witness for claim C6: index 99 is absent from the witness tree, and
injecting there changes nothing. -/
theorem c6_witness :
    witnessTree.findNodeByIndex 99 = none ∧
    injectIframeContent witnessTree 99 childTreeC1 = witnessTree :=
  ⟨rfl, c6_inject_missing_index_is_noop witnessTree 99 childTreeC1 rfl⟩

/-- The maximum-index fold never drops below an already-accumulated
value. -/
theorem findMaxIndexList_ge_acc (children : List AriaChild) (v : Nat) :
    ∀ acc : Option Nat, (∃ w, acc = some w ∧ v ≤ w) →
      ∃ mx, findMaxIndexList acc children = some mx ∧ v ≤ mx := by
  induction children with
  | nil =>
    intro acc h
    obtain ⟨w, hw, hvw⟩ := h
    exact ⟨w, by rw [hw, findMaxIndexList], hvw⟩
  | cons c rest ih =>
    intro acc h
    obtain ⟨w, hw, hvw⟩ := h
    subst hw
    cases c with
    | text s =>
      rw [findMaxIndexList]
      exact ih (some w) ⟨w, rfl, hvw⟩
    | node m =>
      rw [findMaxIndexList]
      cases hm : findMaxIndex m with
      | some cmax =>
        exact ih (some (max w cmax)) ⟨max w cmax, rfl, le_trans hvw (le_max_left _ _)⟩
      | none => exact ih (some w) ⟨w, rfl, hvw⟩

mutual
/-- An index found by depth-first search is bounded by the tree's
maximum index (which therefore exists). -/
theorem le_findMaxIndex_of_findByIndex (n : AriaNode) (i : Nat) (m : AriaNode)
    (h : findByIndex n i = some m) : ∃ mx, findMaxIndex n = some mx ∧ i ≤ mx := by
  cases n with
  | mk f cs =>
    rw [findByIndex] at h
    rw [findMaxIndex]
    by_cases hidx : f.index = some i
    · exact findMaxIndexList_ge_acc cs i f.index ⟨i, hidx, le_refl i⟩
    · rw [if_neg hidx] at h
      exact le_findMaxIndexList_of_findByIndexList cs i m h f.index

/-- Companion of `le_findMaxIndex_of_findByIndex` over a children list,
for any accumulator. -/
theorem le_findMaxIndexList_of_findByIndexList (cs : List AriaChild) (i : Nat)
    (m : AriaNode) (h : findByIndexList cs i = some m) :
    ∀ acc : Option Nat, ∃ mx, findMaxIndexList acc cs = some mx ∧ i ≤ mx := by
  match cs with
  | [] =>
    rw [findByIndexList] at h
    exact absurd h (by simp)
  | .text s :: rest =>
    rw [findByIndexList] at h
    intro acc
    rw [findMaxIndexList]
    exact le_findMaxIndexList_of_findByIndexList rest i m h acc
  | .node nd :: rest =>
    rw [findByIndexList] at h
    intro acc
    rw [findMaxIndexList]
    cases hf : findByIndex nd i with
    | some found =>
      obtain ⟨mx, hmx, hile⟩ := le_findMaxIndex_of_findByIndex nd i found hf
      rw [hmx]
      cases acc with
      | some current =>
        exact findMaxIndexList_ge_acc rest i _
          ⟨max current mx, rfl, le_trans hile (le_max_right _ _)⟩
      | none => exact findMaxIndexList_ge_acc rest i _ ⟨mx, rfl, hile⟩
    | none =>
      rw [hf] at h
      cases hm2 : findMaxIndex nd with
      | some cmax =>
        cases acc with
        | some current => exact le_findMaxIndexList_of_findByIndexList rest i m h _
        | none => exact le_findMaxIndexList_of_findByIndexList rest i m h _
      | none => exact le_findMaxIndexList_of_findByIndexList rest i m h acc
end

/-- Claim C8: after `DomTree::new`, the selector table is long enough
for every index present in the tree - the table holds at least
`max_index + 1` entries, so `get_selector` on a present index always
reads an in-bounds entry. -/
theorem c8_selector_table_covers_tree_indices (root : AriaNode) (i : Nat) (m : AriaNode)
    (h : (DomTree.new root).findNodeByIndex i = some m) :
    i < (DomTree.new root).selectors.length ∧
      ((DomTree.new root).selectors[i]?).isSome = true := by
  have hf : findByIndex root i = some m := h
  obtain ⟨mx, hmx, hile⟩ := le_findMaxIndex_of_findByIndex root i m hf
  have hsel : (DomTree.new root).selectors = List.replicate (mx + 1) "" := by
    show (DomTree.rebuildMaps ⟨root, [], []⟩).selectors = List.replicate (mx + 1) ""
    unfold DomTree.rebuildMaps
    simp [hmx, listResize]
  rw [hsel]
  have hlt : i < (List.replicate (mx + 1) "").length := by
    simpa using Nat.lt_succ_of_le hile
  exact ⟨hlt, by simp [List.getElem?_eq_getElem hlt]⟩

/-- Witness for claim C8: index 5 is present in the witness tree, and
the selector table of its container covers it. -/
theorem c8_witness :
    (DomTree.new witnessRoot).findNodeByIndex 5 =
      some (((AriaNode.new "link" "Go to page").withIndex 5).withBox true none) ∧
    5 < (DomTree.new witnessRoot).selectors.length ∧
    ((DomTree.new witnessRoot).selectors[5]?).isSome = true :=
  ⟨rfl, c8_selector_table_covers_tree_indices witnessRoot 5 _ rfl⟩

mutual
/-- Once the cursor-pointer flag is off, it stays off for the whole
subtree trace. -/
theorem visitFlags_false_flag (n : AriaNode) (p : AriaNode × Bool)
    (hp : p ∈ visitFlags n false) : p.2 = false := by
  cases n with
  | mk f cs =>
    rw [visitFlags] at hp
    rcases List.mem_cons.mp hp with h1 | h2
    · rw [h1]
    · rw [Bool.false_and] at h2
      exact visitFlagsChildren_false_flag cs p h2

/-- Companion of `visitFlags_false_flag` over a children list. -/
theorem visitFlagsChildren_false_flag (cs : List AriaChild) (p : AriaNode × Bool)
    (hp : p ∈ visitFlagsChildren cs false) : p.2 = false := by
  match cs with
  | [] => simp [visitFlagsChildren] at hp
  | .text s :: rest =>
    rw [visitFlagsChildren] at hp
    exact visitFlagsChildren_false_flag rest p hp
  | .node m :: rest =>
    rw [visitFlagsChildren] at hp
    rcases List.mem_append.mp hp with h1 | h2
    · exact visitFlags_false_flag m p h1
    · exact visitFlagsChildren_false_flag rest p h2
end

/-- Helper: appending on the left preserves a fixed suffix. -/
theorem append_keeps_suffix (a : String) {b t : String} (h : ∃ pre, b = pre ++ t) :
    ∃ pre, a ++ b = pre ++ t := by
  obtain ⟨pre, hpre⟩ := h
  exact ⟨a ++ pre, by rw [hpre, String.append_assoc]⟩

/-- When the marker condition holds, the key built by `create_key`
really ends in the `[cursor=pointer]` marker. -/
theorem createKey_marker_suffix (n : AriaNode) (rcp ra : Bool)
    (h : rendersCursorMarker n rcp = true) :
    ∃ pre, createKey n rcp ra = pre ++ " [cursor=pointer]" := by
  unfold rendersCursorMarker at h
  simp only [Bool.and_eq_true] at h
  obtain ⟨⟨hsome, hrcp⟩, hptr⟩ := h
  obtain ⟨i, hidx⟩ := Option.isSome_iff_exists.mp hsome
  unfold createKey
  rw [hidx, hrcp, hptr]
  simp only [Bool.and_self, if_true]
  repeat apply append_keeps_suffix
  exact ⟨"", rfl⟩

/-- Claim C3: in AI mode, once a node renders the `[cursor=pointer]`
marker, no node in its descendant subtree renders it - descending from a
marker-rendering node turns the cursor-pointer flag off, and a false
flag never lets any descendant satisfy the marker condition. -/
theorem c3_cursor_marker_suppressed_below_ancestor (n : AriaNode) (rcp : Bool)
    (h : rendersCursorMarker n rcp = true) :
    ∀ p ∈ visitFlagsChildren n.children (rcp && !rendersCursorMarker n rcp),
      rendersCursorMarker p.1 p.2 = false := by
  intro p hp
  rw [h] at hp
  rw [Bool.not_true, Bool.and_false] at hp
  have h2 := visitFlagsChildren_false_flag n.children p hp
  unfold rendersCursorMarker
  rw [h2]
  simp

/-- Witness for claim C3: a pointer-cursor button at index 0 whose child
link at index 1 also has a pointer cursor; the parent renders the marker
and every descendant in the trace is denied it. -/
theorem c3_witness :
    rendersCursorMarker nestedPointerNode true = true ∧
    ∀ p ∈ visitFlagsChildren nestedPointerNode.children
        (true && !rendersCursorMarker nestedPointerNode true),
      rendersCursorMarker p.1 p.2 = false :=
  ⟨rfl, c3_cursor_marker_suppressed_below_ancestor nestedPointerNode true rfl⟩

/-- Claim C1 (injection does not remap injected indices): injecting the
child frame at iframe index 0 leaves the child's indices unshifted - the
resulting interactive-index list is `[0, 0]` (a duplicate), not the
union `[0, 1]` of the original indices and the injected indices shifted
by the pre-injection selector-table length, even though the iframe node
does receive exactly the child root's children. -/
theorem c1_injected_indices_not_shifted :
    (injectIframeContent mainTreeC1 0 childTreeC1).interactiveIndices = [0, 0] ∧
    mainTreeC1.interactiveIndices = [0] ∧
    childTreeC1.interactiveIndices = [0] ∧
    mainTreeC1.selectors.length = 1 ∧
    sortNat (mainTreeC1.interactiveIndices ++
        childTreeC1.interactiveIndices.map (fun i => i + mainTreeC1.selectors.length)) =
      [0, 1] ∧
    (injectIframeContent mainTreeC1 0 childTreeC1).interactiveIndices ≠
      sortNat (mainTreeC1.interactiveIndices ++
        childTreeC1.interactiveIndices.map (fun i => i + mainTreeC1.selectors.length)) ∧
    (injectIframeContent mainTreeC1 0 childTreeC1).findNodeByIndex 0 =
      some (((AriaNode.new "iframe" "").withIndex 0).withChildren childRootC1.children) :=
  ⟨rfl, rfl, rfl, rfl, rfl, by decide, rfl⟩

/-- The key splits into its role/name part and the state-marker suffix
(pure reassociation of the appends of `createKey`). -/
theorem createKey_eq_namePart_append (n : AriaNode) (rcp ra : Bool) :
    createKey n rcp ra =
      (n.role ++
        (if n.name ≠ "" ∧ n.name.utf8ByteSize ≤ 900 then " " ++ rustDebugFormat n.name
         else "")) ++ keyStateSuffix n rcp ra := by
  unfold createKey keyStateSuffix
  simp [String.append_assoc]

/-- Claim C2 (amended): a non-empty name of at most 900 bytes appears in
full, debug-quoted, right after the role; a name longer than 900 bytes
is dropped from the key altogether (the key equals that of the same node
with an empty name) - it is not truncated. -/
theorem c2_overlong_name_dropped_not_truncated (n : AriaNode) (rcp ra : Bool) :
    (n.name ≠ "" → n.name.utf8ByteSize ≤ 900 →
      ∃ rest, createKey n rcp ra = n.role ++ " " ++ rustDebugFormat n.name ++ rest) ∧
    (900 < n.name.utf8ByteSize → createKey n rcp ra = createKey (eraseName n) rcp ra) := by
  constructor
  · intro h1 h2
    rw [createKey_eq_namePart_append, if_pos ⟨h1, h2⟩]
    exact ⟨keyStateSuffix n rcp ra, by simp [String.append_assoc]⟩
  · intro hlong
    cases n with
    | mk f cs =>
      have hA : ¬((AriaNode.mk f cs).name ≠ "" ∧
          (AriaNode.mk f cs).name.utf8ByteSize ≤ 900) := by
        rintro ⟨-, h2⟩
        omega
      have hB : ¬((AriaNode.mk { f with name := "" } cs).name ≠ "" ∧
          (AriaNode.mk { f with name := "" } cs).name.utf8ByteSize ≤ 900) := by
        rintro ⟨h1, -⟩
        exact h1 rfl
      show createKey (AriaNode.mk f cs) rcp ra =
        createKey (AriaNode.mk { f with name := "" } cs) rcp ra
      unfold createKey
      rw [if_neg hA, if_neg hB]
      rfl

/-- Counterexample for claim C2 as stated: a 901-byte name is not
shortened to 900 characters and kept - the rendered key is just the bare
role, 6 characters long, so it cannot contain any 900-character
truncation of the name. -/
theorem c2_counterexample_long_name_vanishes :
    900 < longName.utf8ByteSize ∧ longName ≠ "" ∧
    longNameNode.name = longName ∧
    createKey longNameNode true true = "button" ∧
    (createKey longNameNode true true).length < 900 :=
  ⟨by decide, by decide, rfl, rfl, by decide⟩

/-- Witness for claim C2: the short-named node keeps its full quoted
name, and the long-named node renders identically to its nameless twin. -/
theorem c2_witness :
    shortNameNode.name ≠ "" ∧ shortNameNode.name.utf8ByteSize ≤ 900 ∧
    (∃ rest, createKey shortNameNode true true =
      shortNameNode.role ++ " " ++ rustDebugFormat shortNameNode.name ++ rest) ∧
    900 < longNameNode.name.utf8ByteSize ∧
    createKey longNameNode true true = createKey (eraseName longNameNode) true true :=
  ⟨by decide, by decide,
   (c2_overlong_name_dropped_not_truncated shortNameNode true true).1 (by decide) (by decide),
   by decide,
   (c2_overlong_name_dropped_not_truncated longNameNode true true).2 (by decide)⟩

/-- The code's needs-quoting predicate is extensionally the trigger list
of spec section 4.2: it fires exactly when one of the spec's conditions
holds. -/
theorem yamlStringNeedsQuotes_iff_spec (s : String) :
    yamlStringNeedsQuotes s = true ↔ specNeedsQuoting s := by
  unfold yamlStringNeedsQuotes specNeedsQuoting
  simp only [Bool.or_eq_true, String.isEmpty_iff]
  tauto

/-- Claim C4: `needsQuoting` returns true for every empty string, string
with boundary whitespace, string starting with a dash, string equal to
true/false/null in any letter case, and string parsing as a float - and
it returns false for every string matching none of the section 4.2
trigger conditions. -/
theorem c4_needs_quoting_characterised (s : String) :
    ((s = "" ∨ startsWithWs s = true ∨ endsWithWs s = true ∨ startsWithDash s = true ∨
      rustToLowercase s = "true" ∨ rustToLowercase s = "false" ∨
      rustToLowercase s = "null" ∨ parsesAsF64 s = true) →
      yamlStringNeedsQuotes s = true) ∧
    (¬ specNeedsQuoting s → yamlStringNeedsQuotes s = false) := by
  constructor
  · intro h
    rw [yamlStringNeedsQuotes_iff_spec]
    unfold specNeedsQuoting
    rcases h with h | h | h | h | h | h | h | h
    · tauto
    · tauto
    · tauto
    · tauto
    · have hk : isYamlKeyword s = true := by
        unfold isYamlKeyword
        rw [h]
        decide
      tauto
    · have hk : isYamlKeyword s = true := by
        unfold isYamlKeyword
        rw [h]
        decide
      tauto
    · have hk : isYamlKeyword s = true := by
        unfold isYamlKeyword
        rw [h]
        decide
      tauto
    · tauto
  · intro h
    cases hq : yamlStringNeedsQuotes s with
    | false => rfl
    | true => exact absurd ((yamlStringNeedsQuotes_iff_spec s).mp hq) h

/-- Witness for claim C4: a cased keyword triggers quoting, and a plain
hyphenated word does not. -/
theorem c4_witness :
    yamlStringNeedsQuotes "TRUE" = true ∧ yamlStringNeedsQuotes "hello-world" = false :=
  ⟨(c4_needs_quoting_characterised "TRUE").1 (by decide),
   (c4_needs_quoting_characterised "hello-world").2 (by unfold specNeedsQuoting; decide)⟩

/-- With duplicate-free keys, every stored entry is found by lookup. -/
theorem propsGet_eq_some_of_mem {l : List (String × String)}
    (hnd : (l.map Prod.fst).Nodup) {k v : String} (hmem : (k, v) ∈ l) :
    propsGet k l = some v := by
  induction l with
  | nil => simp at hmem
  | cons p rest ih =>
    rw [List.map_cons, List.nodup_cons] at hnd
    rcases List.mem_cons.mp hmem with h1 | h2
    · subst h1
      simp [propsGet]
    · have hne : p.1 ≠ k := by
        intro he
        exact hnd.1 (he ▸ List.mem_map_of_mem Prod.fst h2)
      rw [propsGet, if_neg hne]
      exact ih hnd.2 h2

/-- A successful lookup returns a stored entry. -/
theorem mem_of_propsGet_eq_some {l : List (String × String)} {k v : String}
    (h : propsGet k l = some v) : (k, v) ∈ l := by
  induction l with
  | nil => simp [propsGet] at h
  | cons p rest ih =>
    obtain ⟨p1, p2⟩ := p
    rw [propsGet] at h
    by_cases he : p1 = k
    · rw [if_pos he] at h
      have hv := Option.some.inj h
      exact List.mem_cons.mpr (Or.inl (by rw [← he, ← hv]))
    · rw [if_neg he] at h
      exact List.mem_cons_of_mem _ (ih h)

/-- Lookup fails exactly on absent keys. -/
theorem propsGet_eq_none_iff {l : List (String × String)} {k : String} :
    propsGet k l = none ↔ k ∉ l.map Prod.fst := by
  induction l with
  | nil => simp [propsGet]
  | cons p rest ih =>
    rw [propsGet, List.map_cons]
    by_cases he : p.1 = k
    · rw [if_pos he]
      simp [he]
    · rw [if_neg he]
      simp [ih, Ne.symm he]

/-- If every entry of the first list is found in the second, the first
key set is contained in the second. -/
theorem keys_subset_of_all_get {l1 l2 : List (String × String)}
    (hall : ∀ p ∈ l1, propsGet p.1 l2 = some p.2) :
    ∀ k ∈ l1.map Prod.fst, k ∈ l2.map Prod.fst := by
  intro k hk
  obtain ⟨p, hp, hpk⟩ := List.mem_map.mp hk
  have hget := hall p hp
  rw [hpk] at hget
  exact List.mem_map.mpr ⟨(k, p.2), mem_of_propsGet_eq_some hget, rfl⟩

/-- The size-then-membership check `aria_equals` performs on the two
`HashMap`s holds exactly when the two maps agree on every key. -/
theorem propsCodeEqual_iff (a b : PropsMap) :
    propsCodeEqual a b = true ↔ ∀ k, propsGet k a.val = propsGet k b.val := by
  simp only [propsCodeEqual, Bool.and_eq_true, List.all_eq_true, beq_iff_eq,
    decide_eq_true_eq]
  constructor
  · rintro ⟨hlen, hall⟩ k
    cases hga : propsGet k a.val with
    | some v => exact (hall (k, v) (mem_of_propsGet_eq_some hga)).symm
    | none =>
      have hnotin : k ∉ a.val.map Prod.fst := propsGet_eq_none_iff.mp hga
      symm
      rw [propsGet_eq_none_iff]
      intro hk2
      have hsetEq : (a.val.map Prod.fst).toFinset = (b.val.map Prod.fst).toFinset := by
        apply Finset.eq_of_subset_of_card_le
        · intro x hx
          exact List.mem_toFinset.mpr
            (keys_subset_of_all_get hall x (List.mem_toFinset.mp hx))
        · rw [List.toFinset_card_of_nodup a.property,
            List.toFinset_card_of_nodup b.property, List.length_map, List.length_map]
          omega
      exact hnotin (List.mem_toFinset.mp (hsetEq ▸ List.mem_toFinset.mpr hk2))
  · intro hext
    constructor
    · have hsetEq : (a.val.map Prod.fst).toFinset = (b.val.map Prod.fst).toFinset := by
        ext k
        rw [List.mem_toFinset, List.mem_toFinset]
        constructor
        · intro hk
          by_contra hk2
          rw [← propsGet_eq_none_iff, ← hext, propsGet_eq_none_iff] at hk2
          exact hk2 hk
        · intro hk
          by_contra hk2
          rw [← propsGet_eq_none_iff, hext, propsGet_eq_none_iff] at hk2
          exact hk2 hk
      have := congrArg Finset.card hsetEq
      rw [List.toFinset_card_of_nodup a.property,
        List.toFinset_card_of_nodup b.property, List.length_map, List.length_map] at this
      exact this
    · intro p hp
      rw [← hext p.1]
      exact propsGet_eq_some_of_mem a.property (by rw [Prod.mk.eta]; exact hp)

/-- Structural equality characterised extensionally: `aria_equals` holds
exactly when role, name, the six state fields, the pointer-cursor flag
and the prop mapping (as a key-to-value function) all agree. -/
theorem ariaEquals_iff (a b : AriaNode) :
    ariaEquals a b = true ↔
      (a.role = b.role ∧ a.name = b.name ∧ a.checked = b.checked ∧
       a.disabled = b.disabled ∧ a.expanded = b.expanded ∧ a.level = b.level ∧
       a.pressed = b.pressed ∧ a.selected = b.selected ∧
       hasPointerCursor a = hasPointerCursor b ∧
       ∀ k, propsGet k a.props.val = propsGet k b.props.val) := by
  unfold ariaEquals
  simp only [Bool.and_eq_true, beq_iff_eq, propsCodeEqual_iff]
  tauto

/-- Claim C5: the structural differ reports two nodes equal iff their
roles, names, checked/disabled/expanded/level/pressed/selected states,
pointer-cursor flags and prop mappings all agree; in particular changing
only the bounding-box rect, raw visibility, `active` flag or index
preserves equality, while any disagreement in `disabled` forces
inequality. -/
theorem c5_structural_differ_characterised :
    (∀ a b : AriaNode, ariaEquals a b = true ↔
      (a.role = b.role ∧ a.name = b.name ∧ a.checked = b.checked ∧
       a.disabled = b.disabled ∧ a.expanded = b.expanded ∧ a.level = b.level ∧
       a.pressed = b.pressed ∧ a.selected = b.selected ∧
       hasPointerCursor a = hasPointerCursor b ∧
       ∀ k, propsGet k a.props.val = propsGet k b.props.val)) ∧
    (∀ (a : AriaNode) (r : Option Rect) (v : Bool) (act : Option Bool)
      (idx : Option Nat), ariaEquals a (overrideVolatile a r v act idx) = true) ∧
    (∀ a b : AriaNode, ariaEquals a b = true → a.disabled = b.disabled) := by
  refine ⟨ariaEquals_iff, ?_, ?_⟩
  · intro a r v act idx
    rw [ariaEquals_iff]
    cases a with
    | mk f cs =>
      exact ⟨rfl, rfl, rfl, rfl, rfl, rfl, rfl, rfl, rfl, fun k => rfl⟩
  · intro a b h
    exact ((ariaEquals_iff a b).mp h).2.2.2.1

/-- Witness for claim C5: perturbing rect, visibility, `active` and the
index of a concrete button leaves it equal to itself, and the equality
transports the `disabled` field. -/
theorem c5_witness :
    ariaEquals shortNameNode
      (overrideVolatile shortNameNode (some ⟨1, 2, 3, 4⟩) true (some true) (some 9)) =
        true ∧
    shortNameNode.disabled =
      (overrideVolatile shortNameNode (some ⟨1, 2, 3, 4⟩) true (some true)
        (some 9)).disabled :=
  ⟨c5_structural_differ_characterised.2.1 shortNameNode (some ⟨1, 2, 3, 4⟩) true
    (some true) (some 9),
   c5_structural_differ_characterised.2.2 shortNameNode
    (overrideVolatile shortNameNode (some ⟨1, 2, 3, 4⟩) true (some true) (some 9)) rfl⟩

/-- Claim C10: the structural differ's equality is an equivalence
relation on nodes - reflexive, symmetric, and transitive. -/
theorem c10_aria_equals_equivalence :
    (∀ a : AriaNode, ariaEquals a a = true) ∧
    (∀ a b : AriaNode, ariaEquals a b = true → ariaEquals b a = true) ∧
    (∀ a b c : AriaNode, ariaEquals a b = true → ariaEquals b c = true →
      ariaEquals a c = true) := by
  refine ⟨?_, ?_, ?_⟩
  · intro a
    rw [ariaEquals_iff]
    exact ⟨rfl, rfl, rfl, rfl, rfl, rfl, rfl, rfl, rfl, fun k => rfl⟩
  · intro a b h
    rw [ariaEquals_iff] at h ⊢
    obtain ⟨h1, h2, h3, h4, h5, h6, h7, h8, h9, h10⟩ := h
    exact ⟨h1.symm, h2.symm, h3.symm, h4.symm, h5.symm, h6.symm, h7.symm, h8.symm,
      h9.symm, fun k => (h10 k).symm⟩
  · intro a b c hab hbc
    rw [ariaEquals_iff] at hab hbc ⊢
    obtain ⟨a1, a2, a3, a4, a5, a6, a7, a8, a9, a10⟩ := hab
    obtain ⟨b1, b2, b3, b4, b5, b6, b7, b8, b9, b10⟩ := hbc
    exact ⟨a1.trans b1, a2.trans b2, a3.trans b3, a4.trans b4, a5.trans b5,
      a6.trans b6, a7.trans b7, a8.trans b8, a9.trans b9,
      fun k => (a10 k).trans (b10 k)⟩

/-- Witness for claim C10: reflexivity, symmetry and transitivity
exercised on concrete nodes whose volatile fields differ. -/
theorem c10_witness :
    ariaEquals shortNameNode shortNameNode = true ∧
    ariaEquals (overrideVolatile shortNameNode none false none none) shortNameNode =
      true ∧
    ariaEquals shortNameNode (overrideVolatile shortNameNode none false none (some 3)) =
      true :=
  ⟨c10_aria_equals_equivalence.1 shortNameNode,
   c10_aria_equals_equivalence.2.1 shortNameNode
    (overrideVolatile shortNameNode none false none none) rfl,
   c10_aria_equals_equivalence.2.2 shortNameNode
    (overrideVolatile shortNameNode none false none none)
    (overrideVolatile shortNameNode none false none (some 3)) rfl rfl⟩
